import Mathlib

/-!
Verification of the session store and freeze-event aggregation service of the
voice-agent session logger (`backend/app/api.py`, `backend/app/models.py`,
`backend/app/schema.py`, `backend/bot.py`).

Time values (wall-clock seconds, timestamps, latencies, durations) are Python
floats in the source; they are embedded as exact rationals `ℚ`, so that the
arithmetic identities of the specification are stated exactly.
-/

set_option autoImplicit false

namespace SessionLogger

/-- `models.TranscriptTurn` / the transcript-entry dicts built in `bot.py`:
`{role, content, timestamp, latency}`. -/
structure TranscriptTurn where
  role : String
  content : String
  timestamp : ℚ
  latency : ℚ
  deriving DecidableEq, Repr

/-- `models.FreezeEvent`: `{start_time, end_time, duration}`, three floats with
no value-range validators declared in the source. -/
structure FreezeEvent where
  start_time : ℚ
  end_time : ℚ
  duration : ℚ
  deriving DecidableEq, Repr

/-- `schema.Session` (the durable record): id, created_at, transcript,
freeze_events, latency_metrics (a string-keyed float dict, embedded as an
association list), audio_url. -/
structure Session where
  id : String
  created_at : ℚ
  transcript : List TranscriptTurn
  freeze_events : List FreezeEvent
  latency_metrics : List (String × ℚ)
  audio_url : Option String
  deriving DecidableEq, Repr

/-- Lookup in a Python dict embedded as an association list. -/
def dictGet (m : List (String × ℚ)) (k : String) : Option ℚ :=
  match m with
  | [] => none
  | (k', v) :: rest => if k' = k then some v else dictGet rest k

/-- Python dict assignment `m[k] = v`: replace the value at `k` if the key is
present, otherwise add the binding. -/
def dictSet (m : List (String × ℚ)) (k : String) (v : ℚ) : List (String × ℚ) :=
  match m with
  | [] => [(k, v)]
  | (k', v') :: rest => if k' = k then (k, v) :: rest else (k', v') :: dictSet rest k v

/-- One transcript message delivered to `on_transcript_update` in `bot.py`
(the fields of `frame.messages` the handler reads). -/
structure Message where
  role : String
  content : String
  deriving DecidableEq, Repr

/-- The mutable parts of `session_data` in `bot.py` that the transcript
handler touches, plus the session's `created_at` (set once at initialization
and never read by the handler). -/
structure BotState where
  created_at : ℚ
  transcript : List TranscriptTurn
  latency_metrics : List (String × ℚ)
  deriving DecidableEq, Repr

/-- `session_data` as initialized in `run_bot` (bot.py lines 131-138):
empty transcript, empty metrics dict, `created_at` = wall clock at start. -/
def initialBotState (start : ℚ) : BotState :=
  { created_at := start, transcript := [], latency_metrics := [] }

/-- The latency computed for an incoming message (bot.py lines 231-237):
`0.0` unless the role is assistant and the last recorded turn is a user turn,
in which case it is the new timestamp minus that user turn's timestamp. -/
def newLatency (tr : List TranscriptTurn) (role : String) (now : ℚ) : ℚ :=
  if role = "assistant" then
    match tr.getLast? with
    | some last => if last.role = "user" then now - last.timestamp else 0
    | none => 0
  else 0

/-- `[t["latency"] for t in session_data["transcript"] if t["role"] == "assistant"]`
(bot.py line 240). -/
def assistantLatencies (tr : List TranscriptTurn) : List ℚ :=
  (tr.filter (fun t => t.role = "assistant")).map (fun t => t.latency)

/-- The list `latencies` used for the mean (bot.py lines 240-242): the stored
assistant latencies with the current turn's latency appended. -/
def latenciesForAverage (tr : List TranscriptTurn) (role : String) (now : ℚ) : List ℚ :=
  assistantLatencies tr ++ [newLatency tr role now]

/-- One iteration of the `for message in frame.messages` loop of
`on_transcript_update` (bot.py lines 226-250): compute the absolute timestamp
`datetime.utcnow().timestamp()` (passed here as `now`), derive the latency,
recompute `average_latency` on assistant turns, and append the new turn. -/
def processMessage (st : BotState) (msg : Message) (now : ℚ) : BotState :=
  let timestamp := now
  let latency := newLatency st.transcript msg.role timestamp
  let metrics :=
    if msg.role = "assistant" then
      let latencies := latenciesForAverage st.transcript msg.role timestamp
      if latencies = [] then st.latency_metrics
      else dictSet st.latency_metrics "average_latency"
        (latencies.sum / (latencies.length : ℚ))
    else st.latency_metrics
  { created_at := st.created_at,
    transcript := st.transcript ++
      [{ role := msg.role, content := msg.content, timestamp := timestamp, latency := latency }],
    latency_metrics := metrics }

/-- A whole stream of transcript updates: each message paired with the wall
clock at which the handler processes it. -/
def processMessages (st : BotState) (msgs : List (Message × ℚ)) : BotState :=
  msgs.foldl (fun s m => processMessage s m.1 m.2) st

/-- C3: per incoming message, the appended turn carries the claimed latency:
for an assistant message whose predecessor turn is a user turn, the new
timestamp minus that user turn's timestamp; otherwise (assistant with no user
predecessor, or a non-assistant role) zero. -/
theorem turn_latency_rule (st : BotState) (msg : Message) (now : ℚ) :
    (processMessage st msg now).transcript =
      st.transcript ++
        [{ role := msg.role, content := msg.content, timestamp := now,
           latency :=
             if msg.role = "assistant" then
               match st.transcript.getLast? with
               | some last => if last.role = "user" then now - last.timestamp else 0
               | none => 0
             else 0 }] := by
  rfl

theorem dictGet_dictSet (m : List (String × ℚ)) (k : String) (v : ℚ) :
    dictGet (dictSet m k v) k = some v := by
  induction m with
  | nil => simp [dictSet, dictGet]
  | cons p rest ih =>
    obtain ⟨k', v'⟩ := p
    by_cases h : k' = k <;> simp [dictSet, dictGet, h, ih]

theorem assistantLatencies_append (tr : List TranscriptTurn) (t : TranscriptTurn) :
    assistantLatencies (tr ++ [t]) =
      assistantLatencies tr ++ (if t.role = "assistant" then [t.latency] else []) := by
  by_cases h : t.role = "assistant" <;>
    simp [assistantLatencies, List.filter_append, h]

/-- The metric invariant of §3 of the specification: whenever the transcript
holds at least one assistant turn, `latency_metrics["average_latency"]` is the
arithmetic mean of the assistant turns' latencies. -/
def avgOk (st : BotState) : Prop :=
  assistantLatencies st.transcript ≠ [] →
    dictGet st.latency_metrics "average_latency" =
      some ((assistantLatencies st.transcript).sum /
        ((assistantLatencies st.transcript).length : ℚ))

theorem assistantLatencies_processMessage (st : BotState) (msg : Message) (now : ℚ)
    (hr : msg.role = "assistant") :
    assistantLatencies (processMessage st msg now).transcript =
      latenciesForAverage st.transcript msg.role now := by
  simp [processMessage, assistantLatencies_append, hr, latenciesForAverage]

theorem avgOk_processMessage (st : BotState) (msg : Message) (now : ℚ)
    (h : avgOk st) : avgOk (processMessage st msg now) := by
  by_cases hr : msg.role = "assistant"
  · intro _
    have hL := assistantLatencies_processMessage st msg now hr
    rw [hr] at hL
    have hx : latenciesForAverage st.transcript "assistant" now ≠ [] := by
      simp [latenciesForAverage]
    have hm : (processMessage st msg now).latency_metrics =
        dictSet st.latency_metrics "average_latency"
          ((latenciesForAverage st.transcript "assistant" now).sum /
            ((latenciesForAverage st.transcript "assistant" now).length : ℚ)) := by
      simp [processMessage, hr, hx]
    rw [hL, hm, dictGet_dictSet]
  · have htr : assistantLatencies (processMessage st msg now).transcript =
        assistantLatencies st.transcript := by
      simp [processMessage, assistantLatencies_append, hr]
    have hm : (processMessage st msg now).latency_metrics = st.latency_metrics := by
      simp [processMessage, hr]
    intro hne
    rw [htr] at hne
    rw [htr, hm]
    exact h hne

theorem avgOk_processMessages (msgs : List (Message × ℚ)) (st : BotState)
    (h : avgOk st) : avgOk (processMessages st msgs) := by
  induction msgs generalizing st with
  | nil => exact h
  | cons m rest ih =>
    have : processMessages st (m :: rest) = processMessages (processMessage st m.1 m.2) rest := by
      simp [processMessages]
    rw [this]
    exact ih _ (avgOk_processMessage st m.1 m.2 h)

/-- C2: after any stream of transcript updates starting from a fresh session,
as soon as at least one assistant turn is present, `average_latency` equals
the arithmetic mean of the latency field over all assistant turns in the
transcript. -/
theorem average_latency_invariant (start : ℚ) (msgs : List (Message × ℚ))
    (h : assistantLatencies (processMessages (initialBotState start) msgs).transcript ≠ []) :
    dictGet (processMessages (initialBotState start) msgs).latency_metrics "average_latency" =
      some ((assistantLatencies (processMessages (initialBotState start) msgs).transcript).sum /
        ((assistantLatencies (processMessages (initialBotState start) msgs).transcript).length : ℚ)) := by
  refine avgOk_processMessages msgs (initialBotState start) ?_ h
  intro habs
  simp [initialBotState, assistantLatencies] at habs

/-- The six-message stream of the specification's metric-correctness test:
user turns at 10, 20, 30 and assistant replies at 12, 24, 36, so the
assistant latencies are 2, 4 and 6. -/
def demoMsgs : List (Message × ℚ) :=
  [(⟨"user", "q1"⟩, 10), (⟨"assistant", "a1"⟩, 12),
   (⟨"user", "q2"⟩, 20), (⟨"assistant", "a2"⟩, 24),
   (⟨"user", "q3"⟩, 30), (⟨"assistant", "a3"⟩, 36)]

/-- C2 witness: assistant turns with latencies 2, 4 and 6 (user turns with
latency 0 interspersed) give an average latency of exactly 4. -/
theorem average_latency_invariant_witness :
    dictGet (processMessages (initialBotState 0) demoMsgs).latency_metrics
      "average_latency" = some 4 := by
  have hua : ("user" : String) ≠ "assistant" := by decide
  have hau : ("assistant" : String) ≠ "user" := by decide
  have htr : (processMessages (initialBotState 0) demoMsgs).transcript =
      [⟨"user", "q1", 10, 0⟩, ⟨"assistant", "a1", 12, 2⟩,
       ⟨"user", "q2", 20, 0⟩, ⟨"assistant", "a2", 24, 4⟩,
       ⟨"user", "q3", 30, 0⟩, ⟨"assistant", "a3", 36, 6⟩] := by
    norm_num [demoMsgs, processMessages, processMessage, initialBotState, newLatency,
      latenciesForAverage, assistantLatencies, List.filter_cons, List.filter_nil,
      List.getLast?_concat, hua, hau]
  have h := average_latency_invariant 0 demoMsgs (by rw [htr]; decide)
  rw [h, htr]
  norm_num [assistantLatencies, List.filter_cons, List.filter_nil, hua, hau]

/-- C10: on every assistant-role message the list of latencies used for the
mean is non-empty (the current turn's latency is appended before dividing),
so the mean is over a non-empty list and `average_latency` is written on
every assistant turn, including the first turn of a session. -/
theorem assistant_average_always_written (st : BotState) (msg : Message) (now : ℚ)
    (h : msg.role = "assistant") :
    latenciesForAverage st.transcript msg.role now ≠ [] ∧
    (dictGet (processMessage st msg now).latency_metrics "average_latency").isSome = true := by
  have hx : latenciesForAverage st.transcript msg.role now ≠ [] := by
    simp [latenciesForAverage]
  refine ⟨hx, ?_⟩
  have hm : (processMessage st msg now).latency_metrics =
      dictSet st.latency_metrics "average_latency"
        ((latenciesForAverage st.transcript msg.role now).sum /
          ((latenciesForAverage st.transcript msg.role now).length : ℚ)) := by
    rw [processMessage]
    simp only [h, if_true, if_neg (h ▸ hx)]
  rw [hm, dictGet_dictSet]
  rfl

/-- C10 witness: the very first message of a session being an assistant turn
already produces an `average_latency` entry. -/
theorem assistant_average_always_written_witness :
    latenciesForAverage ([] : List TranscriptTurn) "assistant" 5 ≠ [] ∧
    (dictGet (processMessage (initialBotState 0) ⟨"assistant", "hello"⟩ 5).latency_metrics
      "average_latency").isSome = true :=
  assistant_average_always_written (initialBotState 0) ⟨"assistant", "hello"⟩ 5 rfl

/-- C6 counterexample: with the session started at wall-clock 100 and a
message processed at wall-clock 105, the stored timestamp is the absolute
time 105, not the 5 seconds elapsed since session start. -/
theorem timestamp_relative_counterexample :
    ((processMessage (initialBotState 100) ⟨"user", "hi"⟩ 105).transcript.map
      (fun t => t.timestamp)) = [105] ∧
    (105 : ℚ) ≠ 105 - (initialBotState 100).created_at := by
  constructor
  · rfl
  · norm_num [initialBotState]

/-- C6 amended: the stored timestamp of every appended turn is the absolute
wall clock `datetime.utcnow().timestamp()` at processing time (the session's
start time is never subtracted). -/
theorem timestamp_is_absolute_now (st : BotState) (msg : Message) (now : ℚ) :
    ((processMessage st msg now).transcript.getLast?).map (fun t => t.timestamp) =
      some now := by
  simp [processMessage, List.getLast?_concat]

/-! ## The session store

`api.py` delegates persistence to `app.crud` (`create_session`, `get_session`,
`update_session`) over the SQL database of `app.database`; neither module is
among the source files, so the store operations are modelled from the
specification, while the route handlers that call them are embedded from
`api.py`. The database table keyed by session id is embedded as an
association list. -/

/-- The error taxonomy surfaced by the HTTP layer: NotFound (404) and
ValidationError (422). -/
inductive ApiError where
  | notFound
  | validationError
  deriving DecidableEq, Repr

/-- The session table: one row per session id. -/
def Store : Type := List (String × Session)

/-- Row lookup by primary key. -/
def storeLookup (store : Store) (id : String) : Option Session :=
  match store with
  | [] => none
  | (k, s) :: rest => if k = id then some s else storeLookup rest id

/-- Replace the row at the given key, leaving everything else unchanged. -/
def storeReplace (store : Store) (id : String) (s : Session) : Store :=
  match store with
  | [] => []
  | (k, v) :: rest => if k = id then (id, s) :: rest else (k, v) :: storeReplace rest id s

/-- Number of rows carrying the given id. -/
def countKey (store : Store) (id : String) : Nat :=
  (store.filter (fun p => p.1 = id)).length

/-- `read_session` in `api.py`: look the id up and raise 404 if no record
exists (`get_session` itself is modelled from the spec: fails with NotFound
if no record with that id exists, otherwise returns it). -/
def read_session (store : Store) (id : String) : Except ApiError Session :=
  match storeLookup store id with
  | none => Except.error ApiError.notFound
  | some s => Except.ok s

/-- Modelled from the spec: `AppendTranscriptTurns` — the `update_session`
call made by `update_transcript` in `api.py`, whose body
(`app/crud.py`) is not among the source files. Per §4.1 it fails with
NotFound if the session does not exist and otherwise appends all given
turns, in the order supplied, to the end of the existing transcript,
returning the updated record; on failure the store is untouched. -/
def appendTranscriptTurns (store : Store) (id : String) (turns : List TranscriptTurn) :
    Store × Except ApiError Session :=
  match storeLookup store id with
  | none => (store, Except.error ApiError.notFound)
  | some s =>
    let s' := { s with transcript := s.transcript ++ turns }
    (storeReplace store id s', Except.ok s')

/-- Modelled from the spec: `AppendFreezeEvents` — the `update_session` call
made by `update_freeze_events` in `api.py` (`app/crud.py` is not among the
source files). Per §4.1 it fails with NotFound if the session does not
exist and otherwise appends all given events in order. -/
def appendFreezeEvents (store : Store) (id : String) (events : List FreezeEvent) :
    Store × Except ApiError Session :=
  match storeLookup store id with
  | none => (store, Except.error ApiError.notFound)
  | some s =>
    let s' := { s with freeze_events := s.freeze_events ++ events }
    (storeReplace store id s', Except.ok s')

/-- A sequence of transcript PATCH calls, each appending one batch. -/
def applyTranscriptBatches (store : Store) (id : String)
    (batches : List (List TranscriptTurn)) : Store :=
  batches.foldl (fun st b => (appendTranscriptTurns st id b).1) store

/-- A sequence of freeze-event PATCH calls, each appending one batch. -/
def applyFreezeBatches (store : Store) (id : String)
    (batches : List (List FreezeEvent)) : Store :=
  batches.foldl (fun st b => (appendFreezeEvents st id b).1) store

theorem storeLookup_storeReplace (store : Store) (id : String) (s : Session) :
    storeLookup store id ≠ none →
    storeLookup (storeReplace store id s) id = some s := by
  induction store with
  | nil => intro h; simp [storeLookup] at h
  | cons p rest ih =>
    obtain ⟨k, v⟩ := p
    intro h
    by_cases hk : k = id
    · simp [storeLookup, storeReplace, hk]
    · simp only [storeLookup, storeReplace, if_neg hk] at h ⊢
      exact ih h

theorem applyTranscriptBatches_flatten (id : String)
    (batches : List (List TranscriptTurn)) (store : Store) (s : Session)
    (h : storeLookup store id = some s) :
    storeLookup (applyTranscriptBatches store id batches) id =
      some { s with transcript := s.transcript ++ batches.flatten } := by
  induction batches generalizing store s with
  | nil =>
    simpa [applyTranscriptBatches] using h
  | cons b rest ih =>
    have hstep : storeLookup (appendTranscriptTurns store id b).1 id =
        some { s with transcript := s.transcript ++ b } := by
      rw [appendTranscriptTurns, h]
      exact storeLookup_storeReplace store id _ (by rw [h]; exact Option.some_ne_none s)
    have := ih _ _ hstep
    simpa [applyTranscriptBatches, List.append_assoc] using this

theorem applyFreezeBatches_flatten (id : String)
    (batches : List (List FreezeEvent)) (store : Store) (s : Session)
    (h : storeLookup store id = some s) :
    storeLookup (applyFreezeBatches store id batches) id =
      some { s with freeze_events := s.freeze_events ++ batches.flatten } := by
  induction batches generalizing store s with
  | nil =>
    simpa [applyFreezeBatches] using h
  | cons b rest ih =>
    have hstep : storeLookup (appendFreezeEvents store id b).1 id =
        some { s with freeze_events := s.freeze_events ++ b } := by
      rw [appendFreezeEvents, h]
      exact storeLookup_storeReplace store id _ (by rw [h]; exact Option.some_ne_none s)
    have := ih _ _ hstep
    simpa [applyFreezeBatches, List.append_assoc] using this

/-- C1: any sequence of transcript-append (resp. freeze-event-append) calls
against an existing session leaves the collection equal to the original
entries followed by the concatenation of all appended batches in call
order — nothing is removed, replaced or reordered. -/
theorem append_calls_concatenate (store : Store) (id : String) (s : Session)
    (h : storeLookup store id = some s)
    (tbatches : List (List TranscriptTurn)) (fbatches : List (List FreezeEvent)) :
    storeLookup (applyTranscriptBatches store id tbatches) id =
      some { s with transcript := s.transcript ++ tbatches.flatten } ∧
    storeLookup (applyFreezeBatches store id fbatches) id =
      some { s with freeze_events := s.freeze_events ++ fbatches.flatten } :=
  ⟨applyTranscriptBatches_flatten id tbatches store s h,
   applyFreezeBatches_flatten id fbatches store s h⟩

/-- A concrete stored session used by the witnesses. -/
def demoSession : Session :=
  { id := "s1", created_at := 0, transcript := [⟨"user", "hi", 1, 0⟩],
    freeze_events := [⟨1, 2, 1⟩], latency_metrics := [], audio_url := none }

/-- C1 witness: two transcript batches and one freeze batch appended to a
store holding one session concatenate in call order. -/
theorem append_calls_concatenate_witness :
    storeLookup (applyTranscriptBatches [("s1", demoSession)] "s1"
        [[⟨"assistant", "a", 2, 1⟩], [⟨"user", "b", 3, 0⟩, ⟨"assistant", "c", 4, 1⟩]]) "s1" =
      some { demoSession with transcript := demoSession.transcript ++
        [⟨"assistant", "a", 2, 1⟩, ⟨"user", "b", 3, 0⟩, ⟨"assistant", "c", 4, 1⟩] } ∧
    storeLookup (applyFreezeBatches [("s1", demoSession)] "s1"
        [[⟨3, 4, 1⟩], [⟨5, 6, 1⟩]]) "s1" =
      some { demoSession with freeze_events := demoSession.freeze_events ++
        [⟨3, 4, 1⟩, ⟨5, 6, 1⟩] } :=
  append_calls_concatenate [("s1", demoSession)] "s1" demoSession rfl
    [[⟨"assistant", "a", 2, 1⟩], [⟨"user", "b", 3, 0⟩, ⟨"assistant", "c", 4, 1⟩]]
    [[⟨3, 4, 1⟩], [⟨5, 6, 1⟩]]

/-- C5: GET and both PATCH routes against a session id with no backing record
fail with NotFound and return the store unchanged — no session is created
implicitly and no existing record is modified. -/
theorem unknown_id_rejected (store : Store) (id : String)
    (h : storeLookup store id = none)
    (turns : List TranscriptTurn) (events : List FreezeEvent) :
    read_session store id = Except.error ApiError.notFound ∧
    appendTranscriptTurns store id turns = (store, Except.error ApiError.notFound) ∧
    appendFreezeEvents store id events = (store, Except.error ApiError.notFound) := by
  refine ⟨?_, ?_, ?_⟩ <;> simp [read_session, appendTranscriptTurns, appendFreezeEvents, h]

/-- C5 witness: against a store holding only `s1`, every operation on the
unknown id `missing` is NotFound and leaves the store as it was. -/
theorem unknown_id_rejected_witness :
    read_session [("s1", demoSession)] "missing" = Except.error ApiError.notFound ∧
    appendTranscriptTurns [("s1", demoSession)] "missing" [⟨"user", "x", 9, 0⟩] =
      ([("s1", demoSession)], Except.error ApiError.notFound) ∧
    appendFreezeEvents [("s1", demoSession)] "missing" [⟨7, 8, 1⟩] =
      ([("s1", demoSession)], Except.error ApiError.notFound) :=
  unknown_id_rejected [("s1", demoSession)] "missing" rfl
    [⟨"user", "x", 9, 0⟩] [⟨7, 8, 1⟩]

/-- `save_session_to_db` in `bot.py` (lines 141-163): fetch the row with the
bot's session id; if it exists, overwrite its transcript, freeze_events,
latency_metrics and audio_url with the in-memory session data (id and
created_at are not touched); otherwise insert a new row built from the
session data. -/
def save_session_to_db (store : Store) (session_id : String) (sd : Session) : Store :=
  match storeLookup store session_id with
  | some existing =>
    storeReplace store session_id
      { existing with
          transcript := sd.transcript, freeze_events := sd.freeze_events,
          latency_metrics := sd.latency_metrics, audio_url := sd.audio_url }
  | none => (session_id, sd) :: store

theorem countKey_storeReplace (store : Store) (id : String) (s : Session) :
    countKey (storeReplace store id s) id = countKey store id := by
  induction store with
  | nil => rfl
  | cons p rest ih =>
    obtain ⟨k, v⟩ := p
    by_cases hk : k = id
    · simp [storeReplace, countKey, hk] at ih ⊢
    · simp [storeReplace, countKey, hk] at ih ⊢
      simpa using ih

theorem countKey_eq_zero_of_lookup_none (store : Store) (id : String)
    (h : storeLookup store id = none) : countKey store id = 0 := by
  induction store with
  | nil => rfl
  | cons p rest ih =>
    obtain ⟨k, v⟩ := p
    by_cases hk : k = id
    · simp [storeLookup, hk] at h
    · simp only [storeLookup, if_neg hk] at h
      simp [countKey, hk] at ih ⊢
      simpa using ih h

/-- C7: writing the same explicit session id twice upserts: the second write
overwrites the data fields of the first instead of creating a second row,
a subsequent lookup sees only the latest write, and the update path leaves
`id` and `created_at` as the first write stored them. -/
theorem create_twice_upserts (store : Store) (id : String) (sd₁ sd₂ : Session)
    (h : storeLookup store id = none) :
    storeLookup (save_session_to_db (save_session_to_db store id sd₁) id sd₂) id =
      some { sd₁ with
               transcript := sd₂.transcript, freeze_events := sd₂.freeze_events,
               latency_metrics := sd₂.latency_metrics, audio_url := sd₂.audio_url } ∧
    countKey (save_session_to_db (save_session_to_db store id sd₁) id sd₂) id = 1 := by
  have h1 : save_session_to_db store id sd₁ = (id, sd₁) :: store := by
    rw [save_session_to_db, h]
  have h2 : storeLookup ((id, sd₁) :: store) id = some sd₁ := by
    simp [storeLookup]
  have h3 : save_session_to_db ((id, sd₁) :: store) id sd₂ =
      (id, { sd₁ with
               transcript := sd₂.transcript, freeze_events := sd₂.freeze_events,
               latency_metrics := sd₂.latency_metrics, audio_url := sd₂.audio_url }) :: store := by
    rw [save_session_to_db, h2]
    simp [storeReplace]
  rw [h1, h3]
  refine ⟨by simp [storeLookup], ?_⟩
  have := countKey_eq_zero_of_lookup_none store id h
  simp [countKey] at this ⊢
  simpa using this

/-- A second concrete session record, distinct from `demoSession` in every
mutable field, used to exercise the upsert path. -/
def demoSession2 : Session :=
  { id := "s1", created_at := 50, transcript := [⟨"assistant", "z", 60, 3⟩],
    freeze_events := [], latency_metrics := [("average_latency", 3)],
    audio_url := some "/recordings/s1.wav" }

/-- C7 witness: two writes under id `s1` to an empty store leave exactly one
row, carrying the first write's `id` and `created_at` and the second write's
data fields. -/
theorem create_twice_upserts_witness :
    storeLookup (save_session_to_db (save_session_to_db [] "s1" demoSession) "s1" demoSession2) "s1" =
      some { demoSession with
               transcript := demoSession2.transcript,
               freeze_events := demoSession2.freeze_events,
               latency_metrics := demoSession2.latency_metrics,
               audio_url := demoSession2.audio_url } ∧
    countKey (save_session_to_db (save_session_to_db [] "s1" demoSession) "s1" demoSession2) "s1" = 1 :=
  create_twice_upserts [] "s1" demoSession demoSession2 rfl

/-- The POST /sessions/ request body: `schema.Session` has a default for
every column (`id` defaults to a fresh `uuid4()`, `created_at` to
`datetime.utcnow()`, the collections to empty, `audio_url` to None), so a
client may omit any subset of fields. -/
structure SessionInput where
  id : Option String
  created_at : Option ℚ
  transcript : Option (List TranscriptTurn)
  freeze_events : Option (List FreezeEvent)
  latency_metrics : Option (List (String × ℚ))
  audio_url : Option String
  deriving DecidableEq, Repr

/-- Constructing a `schema.Session` from a request body: each omitted field
takes its column default (`freshId` stands for the `uuid4()` draw and `now`
for `datetime.utcnow()`). -/
def mkSchemaSession (inp : SessionInput) (freshId : String) (now : ℚ) : Session :=
  { id := inp.id.getD freshId,
    created_at := inp.created_at.getD now,
    transcript := inp.transcript.getD [],
    freeze_events := inp.freeze_events.getD [],
    latency_metrics := inp.latency_metrics.getD [],
    audio_url := inp.audio_url }

/-- C8: every field of the POST body is optional; omitting `id` yields the
freshly generated id, and omitting `created_at` or a collection yields the
current time resp. an empty collection. -/
theorem post_optional_defaults (inp : SessionInput) (freshId : String) (now : ℚ)
    (hid : inp.id = none) (hc : inp.created_at = none) (ht : inp.transcript = none)
    (hf : inp.freeze_events = none) (hm : inp.latency_metrics = none) :
    mkSchemaSession inp freshId now =
      { id := freshId, created_at := now, transcript := [], freeze_events := [],
        latency_metrics := [], audio_url := inp.audio_url } := by
  simp [mkSchemaSession, hid, hc, ht, hf, hm]

/-- C8 witness: the empty POST body produces a session with the generated id,
the current creation time and empty collections. -/
theorem post_optional_defaults_witness :
    mkSchemaSession ⟨none, none, none, none, none, none⟩ "fresh-id" 42 =
      { id := "fresh-id", created_at := 42, transcript := [], freeze_events := [],
        latency_metrics := [], audio_url := none } :=
  post_optional_defaults ⟨none, none, none, none, none, none⟩ "fresh-id" 42
    rfl rfl rfl rfl rfl

/-! ## Request validation for PATCH /sessions/{id}/freeze_events

FastAPI validates the request body against `models.FreezeEvent` before the
handler in `api.py` runs. `models.FreezeEvent` declares three required float
fields and no value validators, so validation checks only the shape. -/

/-- A raw JSON object arriving as one array element of the PATCH body: each
declared field either present or missing. -/
structure FreezeEventInput where
  start_time : Option ℚ
  end_time : Option ℚ
  duration : Option ℚ
  deriving DecidableEq, Repr

/-- Validation of one body element against `models.FreezeEvent`: every
declared field is required, and no constraint is placed on the values. -/
def validateFreezeEvent (inp : FreezeEventInput) : Except ApiError FreezeEvent :=
  match inp.start_time, inp.end_time, inp.duration with
  | some s, some e, some d => Except.ok { start_time := s, end_time := e, duration := d }
  | _, _, _ => Except.error ApiError.validationError

/-- Validation of the whole request body, element by element. -/
def validateFreezeEvents (raw : List FreezeEventInput) : Except ApiError (List FreezeEvent) :=
  match raw with
  | [] => Except.ok []
  | inp :: rest =>
    match validateFreezeEvent inp, validateFreezeEvents rest with
    | Except.ok e, Except.ok es => Except.ok (e :: es)
    | Except.error err, _ => Except.error err
    | _, Except.error err => Except.error err

/-- `update_freeze_events` in `api.py` as reached over HTTP: the body is
validated before the handler runs, then the validated events are handed to
the store's append operation; a validation failure never touches the store. -/
def update_freeze_events (store : Store) (id : String) (raw : List FreezeEventInput) :
    Store × Except ApiError Session :=
  match validateFreezeEvents raw with
  | Except.error e => (store, Except.error e)
  | Except.ok events => appendFreezeEvents store id events

/-- C9 counterexample: a FreezeEvent with `end_time < start_time` and a
negative `duration` passes validation — `models.FreezeEvent` declares no
value constraints — and the PATCH appends it to the session, mutating the
store, instead of rejecting it with a ValidationError. -/
theorem malformed_freeze_event_accepted :
    validateFreezeEvent { start_time := some 5, end_time := some 3, duration := some (-2) } =
      Except.ok { start_time := 5, end_time := 3, duration := -2 } ∧
    (update_freeze_events [("s1", demoSession)] "s1"
        [{ start_time := some 5, end_time := some 3, duration := some (-2) }]).1 =
      [("s1", { demoSession with
                  freeze_events := demoSession.freeze_events ++ [{ start_time := 5, end_time := 3, duration := -2 }] })] ∧
    ((-2 : ℚ) < 0 ∧ (3 : ℚ) < 5) := by
  refine ⟨rfl, rfl, by norm_num⟩

theorem validateFreezeEvents_error_of_missing (raw : List FreezeEventInput)
    (h : ∃ inp ∈ raw, inp.start_time = none ∨ inp.end_time = none ∨ inp.duration = none) :
    validateFreezeEvents raw = Except.error ApiError.validationError := by
  induction raw with
  | nil => simp at h
  | cons inp rest ih =>
    obtain ⟨x, hx, hmiss⟩ := h
    rcases List.mem_cons.mp hx with hhd | htl
    · subst hhd
      have hv : validateFreezeEvent x = Except.error ApiError.validationError := by
        rcases hmiss with h1 | h2 | h3
        · rw [validateFreezeEvent, h1]
        · rw [validateFreezeEvent, h2]
          rcases x.start_time with _ | s <;> rfl
        · rw [validateFreezeEvent, h3]
          rcases x.start_time with _ | s <;> rcases x.end_time with _ | e <;> rfl
      rw [validateFreezeEvents, hv]
      rcases validateFreezeEvents rest with e | es <;> rfl
    · have hr := ih ⟨x, htl, hmiss⟩
      have hnf : validateFreezeEvent inp ≠ Except.error ApiError.notFound := by
        rw [validateFreezeEvent]
        rcases inp.start_time with _ | s <;> rcases inp.end_time with _ | e <;>
          rcases inp.duration with _ | d <;> simp
      rw [validateFreezeEvents, hr]
      rcases hv : validateFreezeEvent inp with err | ev
      · cases err
        · exact absurd hv hnf
        · rfl
      · rfl

/-- C9 amended: input whose shape is malformed — an element missing a
required field — is rejected with a ValidationError before any mutation
(the store is returned unchanged); value constraints such as non-negative
duration or `end_time >= start_time` are not checked (see the
counterexample). -/
theorem missing_field_rejected_before_mutation (store : Store) (id : String)
    (raw : List FreezeEventInput)
    (h : ∃ inp ∈ raw, inp.start_time = none ∨ inp.end_time = none ∨ inp.duration = none) :
    update_freeze_events store id raw = (store, Except.error ApiError.validationError) := by
  rw [update_freeze_events, validateFreezeEvents_error_of_missing raw h]

/-- C9 witness: a body element missing `duration` is rejected and the store
keeps its exact prior contents. -/
theorem missing_field_rejected_before_mutation_witness :
    update_freeze_events [("s1", demoSession)] "s1"
        [{ start_time := some 1, end_time := some 2, duration := none }] =
      ([("s1", demoSession)], Except.error ApiError.validationError) :=
  missing_field_rejected_before_mutation [("s1", demoSession)] "s1"
    [{ start_time := some 1, end_time := some 2, duration := none }]
    ⟨{ start_time := some 1, end_time := some 2, duration := none },
      List.mem_singleton.mpr rfl, Or.inr (Or.inr rfl)⟩

/-! ## Freeze tracking

No freeze-tracking logic appears in the bot source file (`bot.py` only
initializes `freeze_events` to the empty list); the aggregator that produces
FreezeEvents is repository code outside the provided sources, so it is
modelled from the specification. -/

/-- Modelled from the spec: the freeze-tracking state of the event
aggregator (§4.2) — whether a freeze is in progress and, if so, the
wall-clock time `freeze_start` recorded when it began. The producing code is
not among the source files. -/
structure FreezeState where
  frozen : Bool
  freeze_start : ℚ
  deriving DecidableEq, Repr

/-- Modelled from the spec: one "freeze state changed" pipeline event (§4.2).
On freeze start record `freeze_start = now()`; on freeze end emit one
FreezeEvent with `start_time = freeze_start - session_start`,
`end_time = now() - session_start` and `duration = end - start`. A toggle
that repeats the current state is a no-op and not an error. -/
def handleFreezeToggle (fs : FreezeState) (session_start now : ℚ) (startFreeze : Bool) :
    FreezeState × List FreezeEvent :=
  if startFreeze then
    if fs.frozen then (fs, [])
    else ({ frozen := true, freeze_start := now }, [])
  else
    if fs.frozen then
      ({ fs with frozen := false },
       [{ start_time := fs.freeze_start - session_start,
          end_time := now - session_start,
          duration := (now - session_start) - (fs.freeze_start - session_start) }])
    else (fs, [])

/-- C4: ending a freeze begun at relative time `t₁` at relative time `t₂`
emits exactly one FreezeEvent `⟨t₁, t₂, t₂ - t₁⟩` (the start toggle emits
nothing); toggles repeating the current state emit nothing and leave the
state unchanged. -/
theorem freeze_interval_correct (session_start t₁ t₂ : ℚ) (fs : FreezeState)
    (h : fs.frozen = false) :
    (handleFreezeToggle fs session_start (session_start + t₁) true).2 = [] ∧
    (handleFreezeToggle (handleFreezeToggle fs session_start (session_start + t₁) true).1
        session_start (session_start + t₂) false).2 =
      [{ start_time := t₁, end_time := t₂, duration := t₂ - t₁ }] ∧
    (∀ g : FreezeState, g.frozen = true →
      handleFreezeToggle g session_start (session_start + t₁) true = (g, [])) ∧
    (∀ g : FreezeState, g.frozen = false →
      handleFreezeToggle g session_start (session_start + t₂) false = (g, [])) := by
  refine ⟨?_, ?_, ?_, ?_⟩
  · simp [handleFreezeToggle, h]
  · simp only [handleFreezeToggle, h, if_false, Bool.false_eq_true, if_true]
    norm_num
  · intro g hg; simp [handleFreezeToggle, hg]
  · intro g hg; simp [handleFreezeToggle, hg]

/-- C4 witness: with the session started at wall clock 100, a freeze toggled
on at 120 and off at 125 yields exactly one FreezeEvent with relative
start 20, end 25 and duration 5, and the start toggle emits nothing. -/
theorem freeze_interval_correct_witness :
    (handleFreezeToggle ⟨false, 0⟩ 100 (100 + 20) true).2 = [] ∧
    (handleFreezeToggle (handleFreezeToggle ⟨false, 0⟩ 100 (100 + 20) true).1
        100 (100 + 25) false).2 =
      [{ start_time := 20, end_time := 25, duration := 25 - 20 }] :=
  ⟨(freeze_interval_correct 100 20 25 ⟨false, 0⟩ rfl).1,
   (freeze_interval_correct 100 20 25 ⟨false, 0⟩ rfl).2.1⟩

end SessionLogger
